import Mathlib

/-!
Verification of the AI Image Refine Prompt Generator application.

This file gives a shallow embedding of the application's data model and of
the operations the specification talks about:

* `src/types.ts` : the `AnalysisOption` enumeration, the
  `ImageAnalysisResult` record, the per-tab `TabContentState`, the `Tab`
  record, and the `encode`/`decode` base64 helpers;
* `src/App.tsx` : the session (tab) store with its `addTab`, `renameTab`,
  `deleteTab`, `reorderTabs` and shallow-merge content-update operations;
* `src/components/PromptOutput.tsx` : the pure prompt formatter
  `generateFullRefinePrompt` and the paste guard of the image uploader;
* `src/components/TabContent.tsx` : the `handleImageUpload`,
  `handleDeleteImage` and `handleAnalyze` handlers;
* the tab-rename submission guard of the draggable tab widget.

JavaScript strings are modelled as `String`, nullable values as `Option`,
byte arrays as `List Nat` with elements below 256, and the opaque unique
tab ids as `Nat` drawn from a counter carried in the application state.
-/

/-- JavaScript string truthiness for a nullable string: `null` and the
empty string are falsy, every other string is truthy. -/
def truthyStr : Option String → Bool
  | some s => s != ""
  | none => false

/-- The whitespace characters removed by JavaScript `String.prototype.trim`
(modelling the ASCII whitespace subset, which is all the application ever
feeds it). -/
def isJsSpace (c : Char) : Bool :=
  c = ' ' || c = '\t' || c = '\n' || c = '\r' || c = '\x0b' || c = '\x0c'

/-- `String.prototype.trim` modelled on the character list: drop whitespace
from both ends. -/
def jsTrim (s : String) : String :=
  String.mk (((s.data.dropWhile isJsSpace).reverse.dropWhile isJsSpace).reverse)

/-- The six selectable analysis dimensions of `AnalysisOption` in
`src/types.ts` (the TypeScript enum values are Chinese display strings;
here each enum member is a constructor). -/
inductive AnalysisOption where
  | CHARACTER_ATTIRE
  | CHARACTER_POSE
  | CHARACTER_EXPRESSION
  | PHOTO_BACKGROUND
  | CAMERA_ANGLE
  | OTHER
deriving DecidableEq

/-- `ImageAnalysisResult` from `src/types.ts`: a sparse record with one
optional text field per attribute kind. -/
structure ImageAnalysisResult where
  characterAttire : Option String := none
  characterPose : Option String := none
  characterExpression : Option String := none
  photoBackground : Option String := none
  cameraAngle : Option String := none
  otherAnalysis : Option String := none
deriving DecidableEq

/-- `TabContentState` from `src/types.ts`: the per-session content state. -/
structure TabContentState where
  uploadedImage : Option String
  selectedOptions : List AnalysisOption
  rawAnalysisResult : Option ImageAnalysisResult
  isLoading : Bool
  error : Option String
  otherAnalysisText : String
deriving DecidableEq

/-- `Tab` from `src/types.ts`: id, display name and isolated content state. -/
structure Tab where
  id : Nat
  name : String
  contentState : TabContentState
deriving DecidableEq

/-- The generic instruction phrase used by `generateFullRefinePrompt` when
zero options, several options, or only the free-text option are selected. -/
def genericPrefix : String := "將圖中內容修改為以下描述："

/-- The five standard attributes `generateFullRefinePrompt` falls back to
when no option is selected (the `optionsToConsider` default list). -/
def standardAttributes : List AnalysisOption :=
  [AnalysisOption.CHARACTER_ATTIRE, AnalysisOption.CHARACTER_POSE,
   AnalysisOption.CHARACTER_EXPRESSION, AnalysisOption.PHOTO_BACKGROUND,
   AnalysisOption.CAMERA_ANGLE]

/-- `if (field) descriptionParts.push(field)`: a nullable description field
contributes one segment exactly when it is truthy. -/
def pushTruthy : Option String → List String
  | some s => if s != "" then [s] else []
  | none => []

/-- `Array.prototype.join(sep)` on a list of strings. -/
def joinParts (sep : String) : List String → String
  | [] => ""
  | [s] => s
  | s :: rest => s ++ sep ++ joinParts sep rest

/-- The tail of `generateFullRefinePrompt`:
`descriptionParts.filter(Boolean).join('。')` followed by the template
`` `${prefix} ${combinedDescription.trim()}` ``. -/
def finishPrompt (pfx : String) (descriptionParts : List String) : String :=
  pfx ++ " " ++ jsTrim (joinParts "。" (descriptionParts.filter (fun s => s != "")))

/-- The description segments pushed in the multi/zero-selection branch of
`generateFullRefinePrompt`: one `includes && field` check per attribute, in
source order. -/
def multiParts (d : ImageAnalysisResult) (optionsToConsider : List AnalysisOption) :
    List String :=
  (if optionsToConsider.contains AnalysisOption.CHARACTER_ATTIRE then
    pushTruthy d.characterAttire else [])
  ++ (if optionsToConsider.contains AnalysisOption.CHARACTER_POSE then
    pushTruthy d.characterPose else [])
  ++ (if optionsToConsider.contains AnalysisOption.CHARACTER_EXPRESSION then
    pushTruthy d.characterExpression else [])
  ++ (if optionsToConsider.contains AnalysisOption.PHOTO_BACKGROUND then
    pushTruthy d.photoBackground else [])
  ++ (if optionsToConsider.contains AnalysisOption.CAMERA_ANGLE then
    pushTruthy d.cameraAngle else [])
  ++ (if optionsToConsider.contains AnalysisOption.OTHER then
    pushTruthy d.otherAnalysis else [])

/-- `generateFullRefinePrompt` from `src/components/PromptOutput.tsx`.
The source distinguishes `isSingleOptionSelected` (`options.length === 1`
and `options[0] !== OTHER`, handled by a per-option switch),
`isOtherSelectedAlone`, and the multi/zero-selection branch with its
`optionsToConsider` default; the three cases appear here as a match on the
shape of `options` followed by the same per-option dispatch. -/
def generateFullRefinePrompt (analysisData : Option ImageAnalysisResult)
    (options : List AnalysisOption) : String :=
  match analysisData with
  | none => ""
  | some d =>
    match options with
    | [singleOption] =>
      match singleOption with
      | AnalysisOption.CHARACTER_ATTIRE =>
        finishPrompt "把圖中人物的裝束換成" (pushTruthy d.characterAttire)
      | AnalysisOption.CHARACTER_POSE =>
        finishPrompt "把圖中人物的姿勢/動態換成" (pushTruthy d.characterPose)
      | AnalysisOption.CHARACTER_EXPRESSION =>
        finishPrompt "把圖中人物的表情換成" (pushTruthy d.characterExpression)
      | AnalysisOption.PHOTO_BACKGROUND =>
        finishPrompt "把照片背景換成" (pushTruthy d.photoBackground)
      | AnalysisOption.CAMERA_ANGLE =>
        finishPrompt "把圖中鏡頭角度換成" (pushTruthy d.cameraAngle)
      | AnalysisOption.OTHER =>
        finishPrompt genericPrefix (pushTruthy d.otherAnalysis)
    | _ =>
      let optionsToConsider :=
        if options.length == 0 then standardAttributes else options
      finishPrompt genericPrefix (multiParts d optionsToConsider)

/-- Stated from the spec's words, for comparison with the source function:
a present-and-selected attribute description contributes one segment,
an absent or unselected one contributes nothing. -/
def specPick (selected : List AnalysisOption) (o : AnalysisOption)
    (field : Option String) : List String :=
  match field with
  | some s => if o ∈ selected ∧ s ≠ "" then [s] else []
  | none => []

/-- Stated from the spec's words, for comparison with the source function:
the attribute descriptions that are present in the result and whose
attribute is selected, in the fixed order attire, pose, expression,
background, camera angle, other; zero selection treats the five standard
attributes as selected. -/
def specSelectedDescriptions (d : ImageAnalysisResult)
    (options : List AnalysisOption) : List String :=
  let selected := if options = [] then standardAttributes else options
  specPick selected AnalysisOption.CHARACTER_ATTIRE d.characterAttire
  ++ specPick selected AnalysisOption.CHARACTER_POSE d.characterPose
  ++ specPick selected AnalysisOption.CHARACTER_EXPRESSION d.characterExpression
  ++ specPick selected AnalysisOption.PHOTO_BACKGROUND d.photoBackground
  ++ specPick selected AnalysisOption.CAMERA_ANGLE d.cameraAngle
  ++ specPick selected AnalysisOption.OTHER d.otherAnalysis

/-- Stated from the spec's words: the fixed per-attribute instruction
phrase used when exactly that one option is selected. -/
def instructionPhrase : AnalysisOption → String
  | AnalysisOption.CHARACTER_ATTIRE => "把圖中人物的裝束換成"
  | AnalysisOption.CHARACTER_POSE => "把圖中人物的姿勢/動態換成"
  | AnalysisOption.CHARACTER_EXPRESSION => "把圖中人物的表情換成"
  | AnalysisOption.PHOTO_BACKGROUND => "把照片背景換成"
  | AnalysisOption.CAMERA_ANGLE => "把圖中鏡頭角度換成"
  | AnalysisOption.OTHER => "將圖中內容修改為以下描述："

/-- The description field of an `ImageAnalysisResult` that belongs to a
given attribute option. -/
def fieldOf (d : ImageAnalysisResult) : AnalysisOption → Option String
  | AnalysisOption.CHARACTER_ATTIRE => d.characterAttire
  | AnalysisOption.CHARACTER_POSE => d.characterPose
  | AnalysisOption.CHARACTER_EXPRESSION => d.characterExpression
  | AnalysisOption.PHOTO_BACKGROUND => d.photoBackground
  | AnalysisOption.CAMERA_ANGLE => d.cameraAngle
  | AnalysisOption.OTHER => d.otherAnalysis

/-- The initial `contentState` of a tab created by `createNewTab` in
`src/App.tsx`. -/
def initialContentState : TabContentState :=
  { uploadedImage := none
    selectedOptions := []
    rawAnalysisResult := none
    isLoading := false
    error := none
    otherAnalysisText := "" }

/-- `createNewTab` from `src/App.tsx`; the generated unique id is supplied
by the caller (the store draws it from a counter). -/
def createNewTab (id : Nat) (name : String) : Tab :=
  { id := id, name := name, contentState := initialContentState }

/-- The state owned by the `App` component: the ordered tab list, the
active tab id, and a counter standing in for `generateUniqueId`. -/
structure AppState where
  tabs : List Tab
  activeTabId : Nat
  nextId : Nat
deriving DecidableEq

/-- The state of `App` before the mount effect runs: no tabs yet. -/
def emptyAppState : AppState :=
  { tabs := [], activeTabId := 0, nextId := 0 }

/-- `addTab` from `src/App.tsx`: append a fresh tab named after the current
tab count and make it active. -/
def addTab (s : AppState) : AppState :=
  let newTab := createNewTab s.nextId ("頁籤 " ++ toString (s.tabs.length + 1))
  { tabs := s.tabs ++ [newTab], activeTabId := newTab.id, nextId := s.nextId + 1 }

/-- The mount effect of `App`: if the tab list is empty, add the initial
tab.  `mountedAppState` is the application state every user interaction
starts from. -/
def mountedAppState : AppState :=
  if emptyAppState.tabs.isEmpty then addTab emptyAppState else emptyAppState

/-- `renameTab` from `src/App.tsx`: set the name of the tab with the given
id, unconditionally. -/
def renameTab (s : AppState) (id : Nat) (newName : String) : AppState :=
  { s with
    tabs := s.tabs.map (fun tab => if tab.id = id then { tab with name := newName } else tab) }

/-- `handleRenameSubmit` from the draggable tab widget: invoke the store's
rename only when the edited name is truthy after trimming and differs from
the current name, passing the trimmed name. -/
def handleRenameSubmit (s : AppState) (tabId : Nat) (tabName newTabName : String) :
    AppState :=
  if jsTrim newTabName != "" && newTabName != tabName then
    renameTab s tabId (jsTrim newTabName)
  else s

/-- `deleteTab` from `src/App.tsx`.  The updater filters out the tab with
the given id; if the deleted tab was active and tabs remain, the first
remaining tab becomes active; if no tab remains, `addTab` runs on the
filtered (empty) list, with the new tab's name computed from the
pre-delete tab count captured by the `addTab` closure. -/
def deleteTab (s : AppState) (id : Nat) : AppState :=
  let filteredTabs := s.tabs.filter (fun tab => tab.id != id)
  match filteredTabs with
  | first :: rest =>
    if id = s.activeTabId then
      { s with tabs := first :: rest, activeTabId := first.id }
    else
      { s with tabs := first :: rest }
  | [] =>
    let newTab := createNewTab s.nextId ("頁籤 " ++ toString (s.tabs.length + 1))
    { tabs := [newTab], activeTabId := newTab.id, nextId := s.nextId + 1 }

/-- `reorderTabs` from `src/App.tsx`: `splice` the tab out at `startIndex`
and `splice` it back in at `endIndex`.  Out-of-range `startIndex` (which
the UI never produces) removes nothing and is modelled as the identity. -/
def reorderTabs (s : AppState) (startIndex endIndex : Nat) : AppState :=
  match s.tabs.get? startIndex with
  | none => s
  | some removed =>
    { s with tabs := (s.tabs.eraseIdx startIndex).insertIdx endIndex removed }

/-- A create or delete intent sent to the session store. -/
inductive TabOp where
  | create
  | delete (id : Nat)

/-- Apply one create/delete intent to the store. -/
def applyTabOp (s : AppState) : TabOp → AppState
  | TabOp.create => addTab s
  | TabOp.delete id => deleteTab s id

/-- Apply a sequence of create/delete intents in order. -/
def applyTabOps (s : AppState) (ops : List TabOp) : AppState :=
  ops.foldl applyTabOp s

/-- A `Partial<TabContentState>` as passed to `onTabContentStateChange`:
each field is either absent or carries a replacement value. -/
structure ContentStateUpdate where
  uploadedImage : Option (Option String) := none
  selectedOptions : Option (List AnalysisOption) := none
  rawAnalysisResult : Option (Option ImageAnalysisResult) := none
  isLoading : Option Bool := none
  error : Option (Option String) := none
  otherAnalysisText : Option String := none

/-- The shallow merge `{ ...tab.contentState, ...newState }` performed by
`onTabContentStateChange` in `src/App.tsx`. -/
def applyUpdate (st : TabContentState) (u : ContentStateUpdate) : TabContentState :=
  { uploadedImage := u.uploadedImage.getD st.uploadedImage
    selectedOptions := u.selectedOptions.getD st.selectedOptions
    rawAnalysisResult := u.rawAnalysisResult.getD st.rawAnalysisResult
    isLoading := u.isLoading.getD st.isLoading
    error := u.error.getD st.error
    otherAnalysisText := u.otherAnalysisText.getD st.otherAnalysisText }

/-- The single state update sent by `handleImageUpload` in
`src/components/TabContent.tsx`: store the new image and clear the
analysis result and the error. -/
def handleImageUploadUpdate (base64Image : String) : ContentStateUpdate :=
  { uploadedImage := some (some base64Image)
    rawAnalysisResult := some none
    error := some none }

/-- The single state update sent by `handleDeleteImage` in
`src/components/TabContent.tsx`: clear the image, the analysis result and
the error. -/
def handleDeleteImageUpdate : ContentStateUpdate :=
  { uploadedImage := some none
    rawAnalysisResult := some none
    error := some none }

/-- `handleAnalyze` from `src/components/TabContent.tsx`, up to the call of
the external analysis client.  The returned boolean records whether
`analyzeImage` is invoked; on a validation failure the handler sends a
single error update and returns without calling the client.  The
`isDetailedRequest` flag is only forwarded to the client and plays no role
in validation. -/
def handleAnalyze (st : TabContentState) (isDetailedRequest : Bool) :
    TabContentState × Bool :=
  if truthyStr st.uploadedImage = false then
    (applyUpdate st { error := some (some "請先上傳圖片。") }, false)
  else if st.selectedOptions.contains AnalysisOption.OTHER
      && jsTrim st.otherAnalysisText == "" then
    (applyUpdate st { error := some (some "當選擇「其他」時，請輸入要分析的特定內容。") }, false)
  else
    (applyUpdate st
      { isLoading := some true, error := some none, rawAnalysisResult := some none },
     true)

/-- `handlePaste` from the image uploader, up to the guard that precedes
any clipboard inspection.  `isProcessingPaste` and `isUrlLoading` are the
uploader's local flags; `imagePreview` is the session's `uploadedImage`.
The handler first clears the error, then refuses the paste (returning
`false`: clipboard processing never starts) when something is loading or
an image is already held, reporting a duplicate-image error in the latter
case. -/
def handlePasteGate (st : TabContentState) (isProcessingPaste isUrlLoading : Bool) :
    TabContentState × Bool :=
  let st0 := applyUpdate st { error := some none }
  let currentLoading := st.isLoading || isProcessingPaste || isUrlLoading
  if currentLoading || truthyStr st.uploadedImage then
    (if truthyStr st.uploadedImage then
      applyUpdate st0 { error := some (some "已有圖片上傳，請先刪除現有圖片再貼上新圖片。") }
    else st0, false)
  else
    (st0, true)

/-- The base64 alphabet used by the platform `btoa`/`atob` primitives. -/
def base64Alphabet : List Char :=
  "ABCDEFGHIJKLMNOPQRSTUVWXYZabcdefghijklmnopqrstuvwxyz0123456789+/".data

/-- The base64 digit for a 6-bit value. -/
def b64Char (n : Nat) : Char := base64Alphabet.getD n '='

/-- The 6-bit value of a base64 digit. -/
def b64Val (c : Char) : Nat := base64Alphabet.indexOf c

/-- `btoa` modelled on the byte list underlying the binary string built by
`encode` in `src/types.ts`: standard base64, three bytes to four digits,
with `=` padding on a short final group. -/
def btoaChars : List Nat → List Char
  | [] => []
  | [a] => [b64Char (a / 4), b64Char (a % 4 * 16), '=', '=']
  | [a, b] =>
    [b64Char (a / 4), b64Char (a % 4 * 16 + b / 16), b64Char (b % 16 * 4), '=']
  | a :: b :: c :: rest =>
    b64Char (a / 4) :: b64Char (a % 4 * 16 + b / 16)
      :: b64Char (b % 16 * 4 + c / 64) :: b64Char (c % 64) :: btoaChars rest

/-- `atob` modelled as the inverse reading of four-digit groups, honouring
`=` padding in the final group. -/
def atobBytes : List Char → List Nat
  | c1 :: c2 :: c3 :: c4 :: rest =>
    if c3 = '=' then
      [b64Val c1 * 4 + b64Val c2 / 16]
    else if c4 = '=' then
      [b64Val c1 * 4 + b64Val c2 / 16, b64Val c2 % 16 * 16 + b64Val c3 / 4]
    else
      (b64Val c1 * 4 + b64Val c2 / 16) :: (b64Val c2 % 16 * 16 + b64Val c3 / 4)
        :: (b64Val c3 % 4 * 64 + b64Val c4) :: atobBytes rest
  | _ => []

/-- `encode` from `src/types.ts`: build the binary string from the byte
values (`String.fromCharCode`) and apply `btoa`. -/
def encode (bytes : List Nat) : String := String.mk (btoaChars bytes)

/-- `decode` from `src/types.ts`: apply `atob` and read the byte values
back off the binary string (`charCodeAt`). -/
def decode (base64 : String) : List Nat := atobBytes base64.data

/-- A concrete session used to instantiate theorems with hypotheses: an
image and an analysis result are held, the free-text option is selected,
and its accompanying text is blank. -/
def demoContent : TabContentState :=
  { uploadedImage := some "data:image/png;base64,AAAA"
    selectedOptions := [AnalysisOption.OTHER]
    rawAnalysisResult := some { characterAttire := some "a red coat" }
    isLoading := false
    error := none
    otherAnalysisText := "  " }

/-- Concrete analysis result with only attire and pose present, as in the
spec's zero-selection example. -/
def demoResult : ImageAnalysisResult :=
  { characterAttire := some "X", characterPose := some "Y" }

/-- Concrete analysis result with only the attire description present, as
in the spec's single-selection example. -/
def demoAttireResult : ImageAnalysisResult :=
  { characterAttire := some "a red coat" }

/-- Concrete tabs and store state used to instantiate theorems with
hypotheses. -/
def demoTab1 : Tab := createNewTab 1 "A"

/-- Second concrete tab. -/
def demoTab2 : Tab := createNewTab 2 "B"

/-- Concrete store state holding two tabs with the first one active. -/
def demoAppState : AppState :=
  { tabs := [demoTab1, demoTab2], activeTabId := 1, nextId := 3 }

/-- Claim C6: uploading a new image into a session (the same handler also
commits cropped replacements) and deleting the session's image each clear,
in the same single shallow-merge update, any stored analysis result and
any error message; in particular a held analysis result never survives an
image upload or deletion. -/
theorem imageUpdate_clears_analysis_and_error (st : TabContentState) (img : String) :
    (applyUpdate st (handleImageUploadUpdate img)).rawAnalysisResult = none
    ∧ (applyUpdate st (handleImageUploadUpdate img)).error = none
    ∧ (applyUpdate st handleDeleteImageUpdate).rawAnalysisResult = none
    ∧ (applyUpdate st handleDeleteImageUpdate).error = none :=
  ⟨rfl, rfl, rfl, rfl⟩

/-- Counterexample to claim C7 as stated: the store's `renameTab` applied
with a blank (here empty) name is not a no-op — it renames the addressed
tab to the blank string. -/
theorem renameTab_blank_changes_name :
    (renameTab demoAppState 1 "").tabs.map Tab.name = ["", "B"]
    ∧ demoAppState.tabs.map Tab.name = ["A", "B"] := by
  exact ⟨rfl, rfl⟩

/-- Claim C7 amended: the blank-name guard sits in the tab widget's rename
submission, not in the store; `handleRenameSubmit` does not invoke the
store's `renameTab` when the edited name trims to the empty string, so the
whole application state is unchanged. -/
theorem renameSubmit_blank_noop (s : AppState) (tabId : Nat)
    (tabName newTabName : String) (hblank : jsTrim newTabName = "") :
    handleRenameSubmit s tabId tabName newTabName = s := by
  unfold handleRenameSubmit
  rw [hblank]
  simp

/-- Witness for `renameSubmit_blank_noop` at a whitespace-only name. -/
theorem renameSubmit_blank_noop_witness :
    handleRenameSubmit demoAppState 1 "A" "  " = demoAppState :=
  renameSubmit_blank_noop demoAppState 1 "A" "  " (by decide)

/-- Claim C8: with an image present, the free-text option selected, and
blank accompanying text, `handleAnalyze` records the validation error and
never reaches the external analysis client; the image, the selected
options, and the stored analysis result are unchanged. -/
theorem handleAnalyze_other_blank_validation (st : TabContentState)
    (isDetailedRequest : Bool) (img : String)
    (himg : st.uploadedImage = some img) (hne : img ≠ "")
    (hother : AnalysisOption.OTHER ∈ st.selectedOptions)
    (hblank : jsTrim st.otherAnalysisText = "") :
    handleAnalyze st isDetailedRequest
      = ({ st with error := some "當選擇「其他」時，請輸入要分析的特定內容。" }, false)
    ∧ (handleAnalyze st isDetailedRequest).1.uploadedImage = st.uploadedImage
    ∧ (handleAnalyze st isDetailedRequest).1.selectedOptions = st.selectedOptions
    ∧ (handleAnalyze st isDetailedRequest).1.rawAnalysisResult = st.rawAnalysisResult
    ∧ (handleAnalyze st isDetailedRequest).2 = false := by
  have ht : truthyStr st.uploadedImage = true := by
    rw [himg]
    simp [truthyStr, hne]
  have hmain : handleAnalyze st isDetailedRequest
      = ({ st with error := some "當選擇「其他」時，請輸入要分析的特定內容。" }, false) := by
    unfold handleAnalyze
    rw [ht, hblank]
    simp [applyUpdate, hother]
  refine ⟨hmain, ?_, ?_, ?_, ?_⟩ <;> rw [hmain]

/-- Witness for `handleAnalyze_other_blank_validation` on the concrete
session. -/
theorem handleAnalyze_other_blank_validation_witness :
    handleAnalyze demoContent false
      = ({ demoContent with error := some "當選擇「其他」時，請輸入要分析的特定內容。" }, false) :=
  (handleAnalyze_other_blank_validation demoContent false "data:image/png;base64,AAAA"
    rfl (by decide) (by decide) (by decide)).1

/-- Claim C9: a paste attempt into a session already holding an image
reports the duplicate-image error and never starts clipboard processing;
the held image and the stored analysis result are unchanged, whatever the
loading flags. -/
theorem handlePaste_existing_image_guard (st : TabContentState)
    (isProcessingPaste isUrlLoading : Bool) (img : String)
    (himg : st.uploadedImage = some img) (hne : img ≠ "") :
    handlePasteGate st isProcessingPaste isUrlLoading
      = ({ st with error := some "已有圖片上傳，請先刪除現有圖片再貼上新圖片。" }, false)
    ∧ (handlePasteGate st isProcessingPaste isUrlLoading).1.uploadedImage
        = st.uploadedImage
    ∧ (handlePasteGate st isProcessingPaste isUrlLoading).1.rawAnalysisResult
        = st.rawAnalysisResult
    ∧ (handlePasteGate st isProcessingPaste isUrlLoading).2 = false := by
  have ht : truthyStr st.uploadedImage = true := by
    rw [himg]
    simp [truthyStr, hne]
  have hmain : handlePasteGate st isProcessingPaste isUrlLoading
      = ({ st with error := some "已有圖片上傳，請先刪除現有圖片再貼上新圖片。" }, false) := by
    unfold handlePasteGate
    rw [ht]
    simp [applyUpdate]
  refine ⟨hmain, ?_, ?_, ?_⟩ <;> rw [hmain]

/-- Witness for `handlePaste_existing_image_guard` on the concrete
session. -/
theorem handlePaste_existing_image_guard_witness :
    handlePasteGate demoContent false false
      = ({ demoContent with error := some "已有圖片上傳，請先刪除現有圖片再貼上新圖片。" }, false) :=
  (handlePaste_existing_image_guard demoContent false false "data:image/png;base64,AAAA"
    rfl (by decide)).1

/-- Both create and delete leave the store with at least one tab: create
appends, and delete either keeps a remaining tab or immediately creates a
replacement. -/
theorem applyTabOp_tabs_ne_nil (s : AppState) (op : TabOp) :
    (applyTabOp s op).tabs ≠ [] := by
  cases op with
  | create => simp [applyTabOp, addTab]
  | delete id =>
    show (deleteTab s id).tabs ≠ []
    unfold deleteTab
    cases hf : s.tabs.filter (fun tab => tab.id != id) with
    | nil => simp [hf]
    | cons first rest =>
      by_cases hact : id = s.activeTabId <;> simp [hf, hact]

/-- Claim C3: after any sequence of create/delete operations applied from
the initial (mounted) application state, the tab list is non-empty. -/
theorem tabs_never_empty (ops : List TabOp) :
    (applyTabOps mountedAppState ops).tabs ≠ [] := by
  have key : ∀ (l : List TabOp) (s : AppState), s.tabs ≠ [] →
      (applyTabOps s l).tabs ≠ [] := by
    intro l
    induction l with
    | nil => intro s h; exact h
    | cons op rest ih =>
      intro s _
      exact ih (applyTabOp s op) (applyTabOp_tabs_ne_nil s op)
  exact key ops mountedAppState (by decide)

/-- Claim C4: under the store invariant that the active id belongs to a
tab, deleting the active tab activates the first remaining tab when any
remain; when none remain exactly one fresh tab is created and becomes
active; and deleting a non-active tab leaves the active tab unchanged. -/
theorem deleteTab_activation_spec (s : AppState) (id : Nat)
    (hmem : s.activeTabId ∈ s.tabs.map Tab.id) :
    (∀ first rest, s.tabs.filter (fun tab => tab.id != id) = first :: rest →
      id = s.activeTabId →
      (deleteTab s id).tabs = first :: rest ∧ (deleteTab s id).activeTabId = first.id)
    ∧ (s.tabs.filter (fun tab => tab.id != id) = [] →
      ∃ t, (deleteTab s id).tabs = [t] ∧ (deleteTab s id).activeTabId = t.id)
    ∧ (id ≠ s.activeTabId →
      (deleteTab s id).tabs = s.tabs.filter (fun tab => tab.id != id)
      ∧ (deleteTab s id).activeTabId = s.activeTabId) := by
  refine ⟨?_, ?_, ?_⟩
  · intro first rest hfilt hact
    unfold deleteTab
    rw [hfilt]
    simp [hact]
  · intro hfilt
    unfold deleteTab
    rw [hfilt]
    exact ⟨createNewTab s.nextId ("頁籤 " ++ toString (s.tabs.length + 1)), rfl, rfl⟩
  · intro hne
    obtain ⟨t, htmem, htid⟩ : ∃ t ∈ s.tabs, t.id = s.activeTabId := by
      simpa using hmem
    have htf : t ∈ s.tabs.filter (fun tab => tab.id != id) := by
      rw [List.mem_filter]
      refine ⟨htmem, ?_⟩
      simp [htid, Ne.symm hne]
    cases hf : s.tabs.filter (fun tab => tab.id != id) with
    | nil => rw [hf] at htf; exact absurd htf (List.not_mem_nil t)
    | cons first rest =>
      unfold deleteTab
      rw [hf]
      simp [Ne.symm hne, hne]

/-- Witness for `deleteTab_activation_spec`: deleting the active first tab
of the two-tab store activates the remaining tab. -/
theorem deleteTab_activation_spec_witness :
    (deleteTab demoAppState 1).tabs = [demoTab2]
    ∧ (deleteTab demoAppState 1).activeTabId = demoTab2.id :=
  (deleteTab_activation_spec demoAppState 1 (by decide)).1 demoTab2 [] (by decide) rfl

/-- The element at a valid index, put back in front of the remainder after
erasing that index, is a permutation of the original list. -/
theorem getElem_cons_eraseIdx_perm {α : Type} :
    ∀ (l : List α) (i : Nat) (h : i < l.length),
      List.Perm (l[i] :: l.eraseIdx i) l := by
  intro l
  induction l with
  | nil => intro i h; simp at h
  | cons x xs ih =>
    intro i h
    cases i with
    | zero => simp [List.eraseIdx]
    | succ n =>
      have h' : n < xs.length := by simpa using h
      have step : List.Perm (xs[n] :: x :: xs.eraseIdx n) (x :: xs[n] :: xs.eraseIdx n) :=
        List.Perm.swap x (xs[n]) (xs.eraseIdx n)
      simpa [List.eraseIdx] using step.trans ((ih n h').cons x)

/-- Inserting an element at a position within the list permutes with
putting it in front. -/
theorem insertIdx_perm_cons {α : Type} :
    ∀ (n : Nat) (l : List α) (a : α), n ≤ l.length →
      List.Perm (l.insertIdx n a) (a :: l) := by
  intro n
  induction n with
  | zero => intro l a _; simp [List.insertIdx_zero]
  | succ m ih =>
    intro l a h
    cases l with
    | nil => simp at h
    | cons x xs =>
      have h' : m ≤ xs.length := by simpa using h
      have step : List.Perm (x :: xs.insertIdx m a) (x :: a :: xs) :=
        (ih xs a h').cons x
      exact (List.insertIdx_succ_cons xs x a m ▸ step).trans (List.Perm.swap a x xs)

/-- Claim C5: for valid indices, reordering is a pure permutation — the
resulting tab list is a permutation of the original (so every tab keeps
its id, name and content state), and hence so is the id sequence. -/
theorem reorderTabs_perm (s : AppState) (startIndex endIndex : Nat)
    (hstart : startIndex < s.tabs.length) (hend : endIndex < s.tabs.length) :
    List.Perm (reorderTabs s startIndex endIndex).tabs s.tabs
    ∧ List.Perm ((reorderTabs s startIndex endIndex).tabs.map Tab.id)
        (s.tabs.map Tab.id) := by
  have hget : s.tabs.get? startIndex = some s.tabs[startIndex] :=
    List.get?_eq_get hstart
  have hperm : List.Perm (reorderTabs s startIndex endIndex).tabs s.tabs := by
    unfold reorderTabs
    rw [hget]
    have hlen : endIndex ≤ (s.tabs.eraseIdx startIndex).length := by
      rw [List.length_eraseIdx_of_lt hstart]
      omega
    exact (insertIdx_perm_cons endIndex (s.tabs.eraseIdx startIndex) (s.tabs[startIndex])
      hlen).trans (getElem_cons_eraseIdx_perm s.tabs startIndex hstart)
  exact ⟨hperm, hperm.map Tab.id⟩

/-- Witness for `reorderTabs_perm`: swapping the two tabs of the concrete
store is a permutation. -/
theorem reorderTabs_perm_witness :
    List.Perm (reorderTabs demoAppState 0 1).tabs demoAppState.tabs
    ∧ List.Perm ((reorderTabs demoAppState 0 1).tabs.map Tab.id)
        (demoAppState.tabs.map Tab.id) :=
  reorderTabs_perm demoAppState 0 1 (by decide) (by decide)

/-- A selection-gated truthy push agrees with the spec-side `specPick`. -/
theorem pick_eq (sel : List AnalysisOption) (o : AnalysisOption) (f : Option String) :
    (if sel.contains o then pushTruthy f else []) = specPick sel o f := by
  cases f with
  | none => cases h : sel.contains o <;> simp [pushTruthy, specPick, h]
  | some s =>
    by_cases hm : o ∈ sel
    · by_cases hs : s = "" <;> simp [pushTruthy, specPick, hm, hs]
    · simp [pushTruthy, specPick, hm]

/-- `specPick` only emits non-empty segments, so the `filter(Boolean)`
step keeps all of them. -/
theorem filter_specPick (sel : List AnalysisOption) (o : AnalysisOption)
    (f : Option String) :
    (specPick sel o f).filter (fun s => s != "") = specPick sel o f := by
  cases f with
  | none => rfl
  | some s =>
    by_cases hc : o ∈ sel ∧ s ≠ "" <;> simp [specPick, hc]

/-- The spec-side selected descriptions are all non-empty, so the
`filter(Boolean)` step keeps all of them. -/
theorem filter_specSelectedDescriptions (d : ImageAnalysisResult)
    (options : List AnalysisOption) :
    (specSelectedDescriptions d options).filter (fun s => s != "")
      = specSelectedDescriptions d options := by
  unfold specSelectedDescriptions
  simp only [List.filter_append, filter_specPick]

/-- The source's `options.length === 0` default for `optionsToConsider`
agrees with the spec-side emptiness test. -/
theorem toConsider_eq (options : List AnalysisOption) :
    (if options.length == 0 then standardAttributes else options)
      = (if options = [] then standardAttributes else options) := by
  cases options <;> simp

/-- The multi/zero-selection branch of the formatter produces exactly the
spec-side selected descriptions. -/
theorem multiParts_eq_spec (d : ImageAnalysisResult) (options : List AnalysisOption) :
    multiParts d (if options.length == 0 then standardAttributes else options)
      = specSelectedDescriptions d options := by
  rw [toConsider_eq]
  unfold multiParts specSelectedDescriptions
  simp only [pick_eq]

/-- Claim C1: with zero or several options selected, the formatter output
is the generic prefix followed by the present-and-selected attribute
descriptions, joined by the full-width period, in the fixed order attire,
pose, expression, background, camera angle, other, with the five standard
attributes implicitly selected when none is and absent fields skipped.
(The hypothesis records that the joined body carries no edge whitespace,
which the source's final `trim` would strip.) -/
theorem generateFullRefinePrompt_multi_spec (d : ImageAnalysisResult)
    (options : List AnalysisOption) (hlen : options.length ≠ 1)
    (htrim : jsTrim (joinParts "。" (specSelectedDescriptions d options))
      = joinParts "。" (specSelectedDescriptions d options)) :
    generateFullRefinePrompt (some d) options
      = genericPrefix ++ " " ++ joinParts "。" (specSelectedDescriptions d options) := by
  have hbranch :
      finishPrompt genericPrefix
        (multiParts d (if options.length == 0 then standardAttributes else options))
      = genericPrefix ++ " " ++ joinParts "。" (specSelectedDescriptions d options) := by
    unfold finishPrompt
    rw [multiParts_eq_spec, filter_specSelectedDescriptions, htrim]
  cases options with
  | nil => exact hbranch
  | cons a tail =>
    cases tail with
    | nil => exact absurd rfl hlen
    | cons b rest => exact hbranch

/-- Witness for `generateFullRefinePrompt_multi_spec`: with no option
selected and only attire and pose present, the body after the generic
prefix is exactly the two descriptions joined by one full-width period. -/
theorem generateFullRefinePrompt_multi_spec_witness :
    generateFullRefinePrompt (some demoResult) [] = genericPrefix ++ " " ++ "X。Y" := by
  have h := generateFullRefinePrompt_multi_spec demoResult [] (by decide) (by decide)
  exact h.trans (by decide)

/-- Claim C2: with exactly one non-free-text option selected whose
description is present (non-empty, no edge whitespace), the formatter
output is the fixed per-attribute instruction phrase followed by that
description, with no separator artifacts. -/
theorem generateFullRefinePrompt_single_spec (d : ImageAnalysisResult)
    (opt : AnalysisOption) (hopt : opt ≠ AnalysisOption.OTHER) (desc : String)
    (hdesc : fieldOf d opt = some desc) (hne : desc ≠ "") (htrim : jsTrim desc = desc) :
    generateFullRefinePrompt (some d) [opt] = instructionPhrase opt ++ " " ++ desc := by
  cases opt with
  | OTHER => exact absurd rfl hopt
  | CHARACTER_ATTIRE =>
    simp only [fieldOf] at hdesc
    simp [generateFullRefinePrompt, finishPrompt, instructionPhrase, hdesc,
      pushTruthy, hne, joinParts, htrim]
  | CHARACTER_POSE =>
    simp only [fieldOf] at hdesc
    simp [generateFullRefinePrompt, finishPrompt, instructionPhrase, hdesc,
      pushTruthy, hne, joinParts, htrim]
  | CHARACTER_EXPRESSION =>
    simp only [fieldOf] at hdesc
    simp [generateFullRefinePrompt, finishPrompt, instructionPhrase, hdesc,
      pushTruthy, hne, joinParts, htrim]
  | PHOTO_BACKGROUND =>
    simp only [fieldOf] at hdesc
    simp [generateFullRefinePrompt, finishPrompt, instructionPhrase, hdesc,
      pushTruthy, hne, joinParts, htrim]
  | CAMERA_ANGLE =>
    simp only [fieldOf] at hdesc
    simp [generateFullRefinePrompt, finishPrompt, instructionPhrase, hdesc,
      pushTruthy, hne, joinParts, htrim]

/-- Witness for `generateFullRefinePrompt_single_spec`: selecting only
attire with description "a red coat" yields the spec's exact output. -/
theorem generateFullRefinePrompt_single_spec_witness :
    generateFullRefinePrompt (some demoAttireResult) [AnalysisOption.CHARACTER_ATTIRE]
      = "把圖中人物的裝束換成 a red coat" := by
  have h := generateFullRefinePrompt_single_spec demoAttireResult
    AnalysisOption.CHARACTER_ATTIRE (by decide) "a red coat" rfl (by decide) (by decide)
  exact h.trans (by decide)

/-- Reading a 6-bit value back off its base64 digit recovers the value. -/
theorem b64Val_b64Char : ∀ n, n < 64 → b64Val (b64Char n) = n := by decide

/-- No 6-bit value encodes to the padding character. -/
theorem b64Char_ne_pad : ∀ n, n < 64 → b64Char n ≠ '=' := by decide

/-- Dividing a packed pair of digits by the base recovers the high digit. -/
theorem pack_div (r s k : Nat) (hs : s < k) : (r * k + s) / k = r := by
  have hk : 0 < k := Nat.lt_of_le_of_lt (Nat.zero_le s) hs
  rw [Nat.add_comm, Nat.add_mul_div_right s r hk, Nat.div_eq_of_lt hs, Nat.zero_add]

/-- Reducing a packed pair of digits modulo the base recovers the low
digit. -/
theorem pack_mod (r s k : Nat) (hs : s < k) : (r * k + s) % k = s := by
  rw [Nat.add_comm, Nat.add_mul_mod_self_right, Nat.mod_eq_of_lt hs]

/-- Decoding the base64 digit list produced from a byte list recovers the
bytes, group by group. -/
theorem atobBytes_btoaChars :
    ∀ (l : List Nat), (∀ x ∈ l, x < 256) → atobBytes (btoaChars l) = l := by
  intro l
  induction l using btoaChars.induct with
  | case1 => intro _; rfl
  | case2 a =>
    intro h
    have ha : a < 256 := h a (by simp)
    simp only [btoaChars, atobBytes, if_true]
    rw [b64Val_b64Char _ (by omega), b64Val_b64Char _ (by omega),
      Nat.mul_div_cancel _ (by omega : (0:Nat) < 16)]
    simp only [List.cons.injEq, and_true]
    omega
  | case3 a b =>
    intro h
    have ha : a < 256 := h a (by simp)
    have hb : b < 256 := h b (by simp)
    have h3 : b64Char (b % 16 * 4) ≠ '=' := b64Char_ne_pad _ (by omega)
    simp only [btoaChars, atobBytes, if_neg h3, if_pos rfl, if_true]
    rw [b64Val_b64Char _ (by omega), b64Val_b64Char _ (by omega),
      b64Val_b64Char _ (by omega),
      pack_div (a % 4) (b / 16) 16 (by omega),
      pack_mod (a % 4) (b / 16) 16 (by omega),
      Nat.mul_div_cancel _ (by omega : (0:Nat) < 4)]
    simp only [List.cons.injEq, and_true]
    omega
  | case4 a b c rest ih =>
    intro h
    have ha : a < 256 := h a (by simp)
    have hb : b < 256 := h b (by simp)
    have hc : c < 256 := h c (by simp)
    have h3 : b64Char (b % 16 * 4 + c / 64) ≠ '=' := b64Char_ne_pad _ (by omega)
    have h4 : b64Char (c % 64) ≠ '=' := b64Char_ne_pad _ (by omega)
    simp only [btoaChars, atobBytes, if_neg h3, if_neg h4]
    rw [b64Val_b64Char _ (by omega), b64Val_b64Char _ (by omega),
      b64Val_b64Char _ (by omega), b64Val_b64Char _ (by omega),
      pack_div (a % 4) (b / 16) 16 (by omega),
      pack_mod (a % 4) (b / 16) 16 (by omega),
      pack_div (b % 16) (c / 64) 4 (by omega),
      pack_mod (b % 16) (c / 64) 4 (by omega),
      ih (fun x hx => h x (by simp [hx]))]
    simp only [List.cons.injEq, and_true]
    omega

/-- Claim C10: for every byte list with elements in the range 0 to 255,
decoding the base64 string produced by the encode helper returns the
original bytes. -/
theorem decode_encode_roundtrip (bytes : List Nat) (h : ∀ x ∈ bytes, x < 256) :
    decode (encode bytes) = bytes := by
  show atobBytes (btoaChars bytes) = bytes
  exact atobBytes_btoaChars bytes h

/-- Witness for `decode_encode_roundtrip` on a concrete byte list covering
a full group, a two-byte tail, and the byte bounds. -/
theorem decode_encode_roundtrip_witness :
    decode (encode [72, 101, 108, 255, 0]) = [72, 101, 108, 255, 0] :=
  decode_encode_roundtrip [72, 101, 108, 255, 0] (by decide)
